import Mathlib

/-!
Shallow embedding of `src/SentinelGuard/backend/index.js`: an alert-intake
HTTP service with a fixed-window in-memory rate limiter and a JSON-file
alert store.  Timestamps (`Date.now()`) are modelled as `Int` milliseconds;
the JS object `rateLimitMap` is modelled as a function from (hashed-IP) keys
to optional entries, which matches JS object keyed access; JSON values are
modelled by the inductive `JValue`.
-/

/-- An entry of `rateLimitMap`: `{ count, start }` (index.js line 97). -/
structure RLEntry where
  count : Nat
  start : Int
deriving DecidableEq

/-- The in-memory `rateLimitMap` object (index.js line 68), as a map from
hashed-IP key to entry. -/
def RLMap : Type := String → Option RLEntry

/-- The map at process start: `const rateLimitMap = {}` (index.js line 68). -/
def emptyRLMap : RLMap := fun _ => none

/-- JS object property assignment `rateLimitMap[ip] = e`. -/
def RLMap.set (m : RLMap) (k : String) (e : RLEntry) : RLMap :=
  fun q => if q = k then some e else m q

/-- `RATE_LIMIT_WINDOW_MS = 60 * 1000` (index.js line 69). -/
def RATE_LIMIT_WINDOW_MS : Int := 60 * 1000

/-- `MAX_REQUESTS_PER_WINDOW = 20` (index.js line 70). -/
def MAX_REQUESTS_PER_WINDOW : Nat := 20

/-- `cleanupRateLimitMap(now)` (index.js lines 78-85): delete every entry
with `now - entry.start > RATE_LIMIT_WINDOW_MS`.  The JS loop over
`Object.keys` with `delete` is modelled pointwise. -/
def cleanupRateLimitMap (now : Int) (m : RLMap) : RLMap :=
  fun k =>
    match m k with
    | some entry =>
        if now - entry.start > RATE_LIMIT_WINDOW_MS then none else some entry
    | none => none

/-- The `rateLimiter` middleware body (index.js lines 88-116), after IP
hashing: given the current map, the key `ip` and the time `now`, return the
updated map and whether the request is allowed (`next()` reached = `true`,
429 response = `false`). -/
def rateLimiter (m : RLMap) (ip : String) (now : Int) : RLMap × Bool :=
  let m1 := cleanupRateLimitMap now m
  match m1 ip with
  | none => (m1.set ip ⟨1, now⟩, true)
  | some entry =>
      if now - entry.start > RATE_LIMIT_WINDOW_MS then
        (m1.set ip ⟨1, now⟩, true)
      else if entry.count ≥ MAX_REQUESTS_PER_WINDOW then
        (m1, false)
      else
        (m1.set ip ⟨entry.count + 1, entry.start⟩, true)

/-- A sequence of `rateLimiter` calls for one key at the given times,
returning the final map and the list of allow/deny outcomes. -/
def admitSeq (m : RLMap) (ip : String) (ts : List Int) : RLMap × List Bool :=
  match ts with
  | [] => (m, [])
  | t :: rest =>
      let r := rateLimiter m ip t
      let r2 := admitSeq r.1 ip rest
      (r2.1, r.2 :: r2.2)

/-! ## JSON values and the alert store -/

/-- A JSON value, as produced by `JSON.parse` / consumed by `JSON.stringify`.
Numbers are modelled as integers; no claim depends on non-integral numbers. -/
inductive JValue where
  | str (s : String)
  | num (n : Int)
  | bool (b : Bool)
  | null
  | arr (xs : List JValue)
  | obj (fields : List (String × JValue))

/-- A JSON object body, as a key-ordered field list (parsed objects have
unique keys). -/
abbrev JObj : Type := List (String × JValue)

/-- JS property read `o.k` on an object: `some v` if present, `none` for
`undefined`. -/
def getProp (o : JObj) (k : String) : Option JValue :=
  match o with
  | [] => none
  | (k1, v) :: rest => if k1 = k then some v else getProp rest k

/-- JS property write `o.k = v`: replace in place if the key exists,
otherwise append the new property. -/
def setProp (o : JObj) (k : String) (v : JValue) : JObj :=
  if o.any (fun kv => decide (kv.1 = k)) then
    o.map (fun kv => if kv.1 = k then (k, v) else kv)
  else o ++ [(k, v)]

/-- `typeof x === 'string'` on a property-read result. -/
def isString : Option JValue → Bool
  | some (JValue.str _) => true
  | _ => false

/-- `Array.isArray` shape test used by `initAlertsFile` (index.js line 28). -/
def isArray : JValue → Bool
  | JValue.arr _ => true
  | _ => false

/-- `xs.includes(v)` for a string array against a property-read result:
`===` comparison, so a non-string (or absent) value never matches. -/
def jsIncludes (xs : List String) (v : Option JValue) : Bool :=
  match v with
  | some (JValue.str s) => xs.contains s
  | _ => false

/-- `allowedSeverities = ['LOW', 'MEDIUM', 'HIGH']` (index.js line 134). -/
def allowedSeverities : List String := ["LOW", "MEDIUM", "HIGH"]

/-- The state of the backing file `alerts.json`: absent (reading throws),
present but not valid JSON (parsing throws), or a parsed JSON value. -/
inductive FileContent where
  | missing
  | invalid
  | json (v : JValue)

/-- `initAlertsFile()` (index.js lines 14-44), with succeeding file I/O:
create `[]` if the file is absent; if parsing throws or the parsed value is
not an array, rewrite the file to `[]`; otherwise leave it alone. -/
def initAlertsFile (c : FileContent) : FileContent :=
  match c with
  | FileContent.missing => FileContent.json (JValue.arr [])
  | FileContent.invalid => FileContent.json (JValue.arr [])
  | FileContent.json v =>
      if isArray v then FileContent.json v else FileContent.json (JValue.arr [])

/-- `readAlertsSafe()` (index.js lines 47-55): return the parsed file
content; if reading or parsing throws, catch and return `[]`.  Total by
construction — it never propagates an exception. -/
def readAlertsSafe (c : FileContent) : JValue :=
  match c with
  | FileContent.json v => v
  | FileContent.missing => JValue.arr []
  | FileContent.invalid => JValue.arr []

/-- `writeAlertsSafe(alerts)` (index.js lines 57-65): overwrite the file
with the serialized value and return `true`; on a write error (modelled by
`writeOk = false`) leave the file as it was and return `false`. -/
def writeAlertsSafe (writeOk : Bool) (c : FileContent) (alerts : JValue) :
    FileContent × Bool :=
  if writeOk then (FileContent.json alerts, true) else (c, false)

/-- `existing.push(alert)`: appends when `existing` is an array, throws a
TypeError (modelled by `none`) otherwise. -/
def jsPush (v : JValue) (x : JValue) : Option JValue :=
  match v with
  | JValue.arr xs => some (JValue.arr (xs ++ [x]))
  | _ => none

/-- The store-level append performed by the POST handler (index.js lines
149-152): read the current content, `push` the record, write the whole
array back.  `none` models the `push` call throwing on non-array parsed
content; otherwise the result carries `writeAlertsSafe`'s success flag. -/
def appendOne (writeOk : Bool) (c : FileContent) (r : JValue) :
    Option (FileContent × Bool) :=
  match jsPush (readAlertsSafe c) r with
  | none => none
  | some pushed => some (writeAlertsSafe writeOk c pushed)

/-- Outcome of the `POST /api/alert` handler body (after the rate limiter):
400 invalid, 500 write failure, 200 saved, or an exception escaping the
handler. -/
inductive PostResult where
  | badRequest
  | serverError
  | saved
  | thrown
deriving DecidableEq

/-- The `POST /api/alert` handler body (index.js lines 133-158): validate
`type`/`message`/`severity`, stamp `time` with the server clock ISO string,
then read-push-write the store. -/
def postAlert (writeOk : Bool) (c : FileContent) (body : JObj)
    (nowIso : String) : FileContent × PostResult :=
  if !(isString (getProp body "type")) || !(isString (getProp body "message"))
      || !(jsIncludes allowedSeverities (getProp body "severity")) then
    (c, PostResult.badRequest)
  else
    let alert := setProp body "time" (JValue.str nowIso)
    match appendOne writeOk c (JValue.obj alert) with
    | none => (c, PostResult.thrown)
    | some (c1, true) => (c1, PostResult.saved)
    | some (c1, false) => (c1, PostResult.serverError)

/-! ## Spec-side definitions and reachability -/

/-- Outcome of one admit step as described by the spec: the key's entry
after the call and the allow/deny decision. -/
structure AdmitOutcome where
  entry : Option RLEntry
  allowed : Bool
deriving DecidableEq

/-- The spec's case analysis for `admit(key, now)`, written from the spec's
words (for comparison with `rateLimiter`): no entry → create `{1, now}`,
allowed; expired entry → replace by `{1, now}`, allowed; full entry →
denied, unchanged; otherwise increment, allowed. -/
def admitSpec (m : RLMap) (k : String) (now : Int) : AdmitOutcome :=
  match m k with
  | none => ⟨some ⟨1, now⟩, true⟩
  | some e =>
      if now - e.start > RATE_LIMIT_WINDOW_MS then ⟨some ⟨1, now⟩, true⟩
      else if e.count ≥ MAX_REQUESTS_PER_WINDOW then ⟨some e, false⟩
      else ⟨some ⟨e.count + 1, e.start⟩, true⟩

/-- Rate-limit tables reachable from the empty table by any sequence of
`rateLimiter` calls. -/
inductive ReachableRL : RLMap → Prop where
  | init : ReachableRL emptyRLMap
  | step (m : RLMap) (ip : String) (now : Int) :
      ReachableRL m → ReachableRL (rateLimiter m ip now).1

/-! ## Lemmas -/

-- Basic pointwise lemmas about the map operations.

lemma RLMap.set_self (m : RLMap) (k : String) (e : RLEntry) :
    (m.set k e) k = some e := by
  simp [RLMap.set]

lemma RLMap.set_other (m : RLMap) (k q : String) (e : RLEntry) (h : q ≠ k) :
    (m.set k e) q = m q := by
  simp [RLMap.set, h]

lemma cleanup_eq (now : Int) (m : RLMap) (k : String) :
    cleanupRateLimitMap now m k =
      match m k with
      | some entry =>
          if now - entry.start > RATE_LIMIT_WINDOW_MS then none else some entry
      | none => none := rfl

lemma cleanup_sound (now : Int) (m : RLMap) (k : String) (e : RLEntry)
    (h : cleanupRateLimitMap now m k = some e) :
    m k = some e ∧ now - e.start ≤ RATE_LIMIT_WINDOW_MS := by
  rw [cleanup_eq] at h
  cases hm : m k with
  | none => simp [hm] at h
  | some e0 =>
      simp only [hm] at h
      by_cases hx : now - e0.start > RATE_LIMIT_WINDOW_MS
      · simp [if_pos hx] at h
      · simp only [if_neg hx] at h
        cases h
        exact ⟨rfl, le_of_not_lt hx⟩

-- The four branches of `rateLimiter`, phrased on the pre-call map.

lemma admit_none (m : RLMap) (ip : String) (now : Int) (h : m ip = none) :
    rateLimiter m ip now =
      ((cleanupRateLimitMap now m).set ip ⟨1, now⟩, true) := by
  have h1 : cleanupRateLimitMap now m ip = none := by rw [cleanup_eq, h]
  simp only [rateLimiter, h1]

lemma admit_expired (m : RLMap) (ip : String) (now : Int) (e : RLEntry)
    (h : m ip = some e) (hx : now - e.start > RATE_LIMIT_WINDOW_MS) :
    rateLimiter m ip now =
      ((cleanupRateLimitMap now m).set ip ⟨1, now⟩, true) := by
  have h1 : cleanupRateLimitMap now m ip = none := by
    simp [cleanup_eq, h, if_pos hx]
  simp only [rateLimiter, h1]

lemma admit_full (m : RLMap) (ip : String) (now : Int) (e : RLEntry)
    (h : m ip = some e) (hx : now - e.start ≤ RATE_LIMIT_WINDOW_MS)
    (hc : e.count ≥ MAX_REQUESTS_PER_WINDOW) :
    rateLimiter m ip now = (cleanupRateLimitMap now m, false) := by
  have h1 : cleanupRateLimitMap now m ip = some e := by
    simp [cleanup_eq, h, if_neg (not_lt_of_le hx)]
  simp only [rateLimiter, h1, if_neg (not_lt_of_le hx), if_pos hc]

lemma admit_inc (m : RLMap) (ip : String) (now : Int) (e : RLEntry)
    (h : m ip = some e) (hx : now - e.start ≤ RATE_LIMIT_WINDOW_MS)
    (hc : e.count < MAX_REQUESTS_PER_WINDOW) :
    rateLimiter m ip now =
      ((cleanupRateLimitMap now m).set ip ⟨e.count + 1, e.start⟩, true) := by
  have h1 : cleanupRateLimitMap now m ip = some e := by
    simp [cleanup_eq, h, if_neg (not_lt_of_le hx)]
  simp only [rateLimiter, h1, if_neg (not_lt_of_le hx), if_neg (not_le_of_lt hc)]

-- Property-list lemmas relating `getProp` and `setProp`.

lemma getProp_none_of_any_false (o : JObj) (k : String)
    (h : o.any (fun kv => decide (kv.1 = k)) = false) : getProp o k = none := by
  induction o with
  | nil => rfl
  | cons hd tl ih =>
      simp only [List.any_cons, Bool.or_eq_false_iff, decide_eq_false_iff_not] at h
      simp only [getProp, if_neg h.1]
      exact ih h.2

lemma getProp_append_single (o : JObj) (k : String) (v : JValue)
    (h : getProp o k = none) : getProp (o ++ [(k, v)]) k = some v := by
  induction o with
  | nil => simp [getProp]
  | cons hd tl ih =>
      simp only [getProp] at h
      by_cases hk : hd.1 = k
      · rw [if_pos hk] at h; exact absurd h (by simp)
      · rw [if_neg hk] at h
        simpa [getProp, hk] using ih h

lemma getProp_map_replace (o : JObj) (k : String) (v : JValue)
    (h : o.any (fun kv => decide (kv.1 = k)) = true) :
    getProp (o.map (fun kv => if kv.1 = k then (k, v) else kv)) k = some v := by
  induction o with
  | nil => simp at h
  | cons hd tl ih =>
      obtain ⟨a, b⟩ := hd
      rw [List.map_cons]
      dsimp only
      by_cases hk : a = k
      · rw [if_pos hk]; simp [getProp]
      · rw [if_neg hk]
        simp only [List.any_cons, Bool.or_eq_true, decide_eq_true_eq] at h
        rcases h with h | h
        · exact absurd h hk
        · simpa [getProp, hk] using ih h

lemma getProp_map_other (o : JObj) (k q : String) (v : JValue) (hq : q ≠ k) :
    getProp (o.map (fun kv => if kv.1 = k then (k, v) else kv)) q =
      getProp o q := by
  induction o with
  | nil => rfl
  | cons hd tl ih =>
      obtain ⟨a, b⟩ := hd
      rw [List.map_cons]
      dsimp only
      by_cases hk : a = k
      · rw [if_pos hk]
        have h1 : ¬(k = q) := fun hh => hq hh.symm
        have h2 : ¬(a = q) := by rw [hk]; exact h1
        simp [getProp, h1, h2, ih]
      · rw [if_neg hk]
        by_cases h2 : a = q <;> simp [getProp, h2, ih]

lemma getProp_append_single_other (o : JObj) (k q : String) (v : JValue)
    (hq : q ≠ k) : getProp (o ++ [(k, v)]) q = getProp o q := by
  induction o with
  | nil =>
      simp only [List.nil_append, getProp]
      rw [if_neg (fun hh => hq hh.symm)]
  | cons hd tl ih =>
      obtain ⟨a, b⟩ := hd
      by_cases hk : a = q <;> simp [getProp, hk, ih]

/-- Writing `time` makes `time` read back as the written value. -/
lemma getProp_setProp_same (o : JObj) (k : String) (v : JValue) :
    getProp (setProp o k v) k = some v := by
  unfold setProp
  cases hany : o.any (fun kv => decide (kv.1 = k)) with
  | true => simpa [hany] using getProp_map_replace o k v hany
  | false =>
      simpa [hany] using
        getProp_append_single o k v (getProp_none_of_any_false o k hany)

/-- Writing `time` leaves every other property read unchanged. -/
lemma getProp_setProp_other (o : JObj) (k q : String) (v : JValue)
    (hq : q ≠ k) : getProp (setProp o k v) q = getProp o q := by
  unfold setProp
  cases hany : o.any (fun kv => decide (kv.1 = k)) with
  | true => simpa [hany] using getProp_map_other o k q v hq
  | false => simpa [hany] using getProp_append_single_other o k q v hq

-- Further rate-limiter helper lemmas.

/-- For a key other than the one being admitted, an admit call acts exactly
as the cleanup sweep. -/
lemma admit_other (m : RLMap) (ip : String) (now : Int) (q : String)
    (h : q ≠ ip) :
    (rateLimiter m ip now).1 q = cleanupRateLimitMap now m q := by
  simp only [rateLimiter]
  cases hc : cleanupRateLimitMap now m ip with
  | none => simp [RLMap.set, h]
  | some e =>
      by_cases hx : now - e.start > RATE_LIMIT_WINDOW_MS
      · simp [hx, RLMap.set, h]
      · by_cases hcnt : e.count ≥ MAX_REQUESTS_PER_WINDOW
        · simp [hx, hcnt, RLMap.set, h]
        · simp [hx, hcnt, RLMap.set, h]

/-- Every entry present after an admit call either was already present, or
was created with count 1, or is the increment of a non-full entry. -/
lemma admit_entry_source (m : RLMap) (ip : String) (now : Int) (q : String)
    (e : RLEntry) (h : (rateLimiter m ip now).1 q = some e) :
    m q = some e ∨ e = ⟨1, now⟩ ∨
      ∃ e0, m q = some e0 ∧ e0.count < MAX_REQUESTS_PER_WINDOW ∧
        e = ⟨e0.count + 1, e0.start⟩ := by
  by_cases hq : q = ip
  · subst hq
    cases hm : m q with
    | none =>
        rw [admit_none m q now hm] at h
        rw [show (((cleanupRateLimitMap now m).set q ⟨1, now⟩, true).1 q)
          = ((cleanupRateLimitMap now m).set q ⟨1, now⟩) q from rfl,
          RLMap.set_self] at h
        cases h
        exact Or.inr (Or.inl rfl)
    | some e0 =>
        by_cases hx : now - e0.start > RATE_LIMIT_WINDOW_MS
        · rw [admit_expired m q now e0 hm hx] at h
          rw [show (((cleanupRateLimitMap now m).set q ⟨1, now⟩, true).1 q)
            = ((cleanupRateLimitMap now m).set q ⟨1, now⟩) q from rfl,
            RLMap.set_self] at h
          cases h
          exact Or.inr (Or.inl rfl)
        · by_cases hcnt : e0.count ≥ MAX_REQUESTS_PER_WINDOW
          · rw [admit_full m q now e0 hm (le_of_not_lt hx) hcnt] at h
            exact Or.inl (hm.symm.trans (cleanup_sound now m q e h).1)
          · rw [admit_inc m q now e0 hm (le_of_not_lt hx)
              (lt_of_not_ge hcnt)] at h
            rw [show (((cleanupRateLimitMap now m).set q
              ⟨e0.count + 1, e0.start⟩, true).1 q)
              = ((cleanupRateLimitMap now m).set q ⟨e0.count + 1, e0.start⟩) q
              from rfl, RLMap.set_self] at h
            cases h
            exact Or.inr (Or.inr ⟨e0, rfl, lt_of_not_ge hcnt, rfl⟩)
  · rw [admit_other m ip now q hq] at h
    exact Or.inl (cleanup_sound now m q e h).1

/-- Running a list of admits for a key whose entry has count `c` and window
start `s`, all within the window and without hitting the cap: every call is
allowed and the count increases by the number of calls. -/
lemma admitSeq_run (ip : String) (ts : List Int) :
    ∀ (m : RLMap) (c : Nat) (s : Int),
    m ip = some ⟨c, s⟩ →
    c + ts.length ≤ MAX_REQUESTS_PER_WINDOW →
    (∀ t ∈ ts, t - s ≤ RATE_LIMIT_WINDOW_MS) →
    (admitSeq m ip ts).1 ip = some ⟨c + ts.length, s⟩ ∧
      (admitSeq m ip ts).2.all (fun b => b) = true := by
  induction ts with
  | nil =>
      intro m c s hm _ _
      simpa [admitSeq] using hm
  | cons t rest ih =>
      intro m c s hm hlen hin
      have hc : c < MAX_REQUESTS_PER_WINDOW := by
        simp only [List.length_cons] at hlen; omega
      have ht : t - s ≤ RATE_LIMIT_WINDOW_MS := hin t (List.mem_cons_self t rest)
      have hstep := admit_inc m ip t ⟨c, s⟩ hm ht hc
      have hm2 : ((cleanupRateLimitMap t m).set ip ⟨c + 1, s⟩) ip
          = some ⟨c + 1, s⟩ := RLMap.set_self _ _ _
      have hrec := ih _ (c + 1) s hm2
        (by simp only [List.length_cons] at hlen ⊢; omega)
        (fun t2 h2 => hin t2 (List.mem_cons_of_mem t h2))
      constructor
      · have : c + 1 + rest.length = c + (t :: rest).length := by
          simp only [List.length_cons]; omega
        rw [← this]
        simpa [admitSeq, hstep] using hrec.1
      · simp [admitSeq, hstep, hrec.2]

/-- Any validation failure short-circuits to 400 with the store untouched:
the result does not depend on the store content at all. -/
lemma postAlert_invalid (w : Bool) (c : FileContent) (body : JObj)
    (iso : String)
    (h : isString (getProp body "type") = false ∨
      isString (getProp body "message") = false ∨
      jsIncludes allowedSeverities (getProp body "severity") = false) :
    postAlert w c body iso = (c, PostResult.badRequest) := by
  rcases h with h | h | h <;> simp [postAlert, h]

/-- If the handler reports `saved`, then validation passed, the write
succeeded, the parsed store content was an array, and the new content is
that array with the time-stamped body object appended. -/
lemma postAlert_saved_shape (w : Bool) (c : FileContent) (body : JObj)
    (iso : String) (h : (postAlert w c body iso).2 = PostResult.saved) :
    isString (getProp body "type") = true ∧
    isString (getProp body "message") = true ∧
    jsIncludes allowedSeverities (getProp body "severity") = true ∧
    w = true ∧
    ∃ xs, readAlertsSafe c = JValue.arr xs ∧
      (postAlert w c body iso).1 =
        FileContent.json (JValue.arr
          (xs ++ [JValue.obj (setProp body "time" (JValue.str iso))])) := by
  cases h1 : isString (getProp body "type") with
  | false => simp [postAlert, h1] at h
  | true =>
  cases h2 : isString (getProp body "message") with
  | false => simp [postAlert, h2] at h
  | true =>
  cases h3 : jsIncludes allowedSeverities (getProp body "severity") with
  | false => simp [postAlert, h3] at h
  | true =>
  cases hr : readAlertsSafe c with
  | arr xs =>
      cases w with
      | false => simp [postAlert, h1, h2, h3, appendOne, hr, jsPush,
          writeAlertsSafe] at h
      | true =>
          refine ⟨rfl, rfl, rfl, rfl, xs, rfl, ?_⟩
          simp [postAlert, h1, h2, h3, appendOne, hr, jsPush, writeAlertsSafe]
  | str s => simp [postAlert, h1, h2, h3, appendOne, hr, jsPush] at h
  | num n => simp [postAlert, h1, h2, h3, appendOne, hr, jsPush] at h
  | bool b => simp [postAlert, h1, h2, h3, appendOne, hr, jsPush] at h
  | null => simp [postAlert, h1, h2, h3, appendOne, hr, jsPush] at h
  | obj fs => simp [postAlert, h1, h2, h3, appendOne, hr, jsPush] at h

/-- Every entry present right after an admit call is within the window. -/
lemma admit_post_fresh (m : RLMap) (ip : String) (now : Int) (q : String)
    (e : RLEntry) (h : (rateLimiter m ip now).1 q = some e) :
    now - e.start ≤ RATE_LIMIT_WINDOW_MS := by
  by_cases hq : q = ip
  · subst hq
    cases hm : m q with
    | none =>
        rw [admit_none m q now hm] at h
        rw [show ((((cleanupRateLimitMap now m).set q ⟨1, now⟩), true).1 q)
          = ((cleanupRateLimitMap now m).set q ⟨1, now⟩) q from rfl,
          RLMap.set_self] at h
        cases h
        show now - now ≤ RATE_LIMIT_WINDOW_MS
        unfold RATE_LIMIT_WINDOW_MS
        omega
    | some e0 =>
        by_cases hx : now - e0.start > RATE_LIMIT_WINDOW_MS
        · rw [admit_expired m q now e0 hm hx] at h
          rw [show ((((cleanupRateLimitMap now m).set q ⟨1, now⟩), true).1 q)
            = ((cleanupRateLimitMap now m).set q ⟨1, now⟩) q from rfl,
            RLMap.set_self] at h
          cases h
          show now - now ≤ RATE_LIMIT_WINDOW_MS
          unfold RATE_LIMIT_WINDOW_MS
          omega
        · by_cases hcnt : e0.count ≥ MAX_REQUESTS_PER_WINDOW
          · rw [admit_full m q now e0 hm (le_of_not_lt hx) hcnt] at h
            exact (cleanup_sound now m q e h).2
          · rw [admit_inc m q now e0 hm (le_of_not_lt hx)
              (lt_of_not_ge hcnt)] at h
            rw [show (((cleanupRateLimitMap now m).set q
              ⟨e0.count + 1, e0.start⟩, true).1 q)
              = ((cleanupRateLimitMap now m).set q ⟨e0.count + 1, e0.start⟩) q
              from rfl, RLMap.set_self] at h
            cases h
            exact le_of_not_lt hx
  · rw [admit_other m ip now q hq] at h
    exact (cleanup_sound now m q e h).2

/-! ## Claim theorems: rate limiter -/

/-- C2: for every key and time `now`, `admit(key, now)` follows exactly the
spec's case analysis on the rate-limit table before the call: no entry →
create `{count: 1, windowStart: now}` and allow; expired entry → replace by
`{count: 1, windowStart: now}` and allow; full entry (`count >=
MAX_REQUESTS`) → deny with the key's entry unchanged; otherwise increment
the count and allow.  `admitSpec` is that case analysis written from the
spec's words; `rateLimiter` is the code. -/
theorem C2_admit_case_analysis (m : RLMap) (ip : String) (now : Int) :
    (rateLimiter m ip now).2 = (admitSpec m ip now).allowed ∧
    (rateLimiter m ip now).1 ip = (admitSpec m ip now).entry := by
  cases hm : m ip with
  | none =>
      rw [admit_none m ip now hm]
      simp [admitSpec, hm, RLMap.set_self]
  | some e =>
      by_cases hx : now - e.start > RATE_LIMIT_WINDOW_MS
      · rw [admit_expired m ip now e hm hx]
        simp [admitSpec, hm, hx, RLMap.set_self]
      · by_cases hcnt : e.count ≥ MAX_REQUESTS_PER_WINDOW
        · rw [admit_full m ip now e hm (le_of_not_lt hx) hcnt]
          have hcl : cleanupRateLimitMap now m ip = some e := by
            simp [cleanup_eq, hm, if_neg hx]
          simp [admitSpec, hm, hx, hcnt, hcl]
        · rw [admit_inc m ip now e hm (le_of_not_lt hx) (lt_of_not_ge hcnt)]
          simp [admitSpec, hm, hx, hcnt, RLMap.set_self]

/-- C3: with `MAX_REQUESTS = 20` and `WINDOW_MS = 60000`, after 20 admitted
requests for one identity starting at `windowStart` (all within the
window), the 21st admit within 60000 ms of `windowStart` is denied, and an
admit at `windowStart + 60001` is allowed and resets the count to 1. -/
theorem C3_window_boundary (ip : String) (t0 : Int) (rest : List Int)
    (hlen : rest.length = 19) (hin : ∀ t ∈ rest, t - t0 ≤ 60000)
    (now21 : Int) (h21 : now21 - t0 ≤ 60000) :
    (admitSeq emptyRLMap ip (t0 :: rest)).2.all (fun b => b) = true ∧
    (rateLimiter (admitSeq emptyRLMap ip (t0 :: rest)).1 ip now21).2 = false ∧
    (rateLimiter (rateLimiter (admitSeq emptyRLMap ip (t0 :: rest)).1 ip
      now21).1 ip (t0 + 60001)).2 = true ∧
    (rateLimiter (rateLimiter (admitSeq emptyRLMap ip (t0 :: rest)).1 ip
      now21).1 ip (t0 + 60001)).1 ip = some ⟨1, t0 + 60001⟩ := by
  have hW : RATE_LIMIT_WINDOW_MS = 60000 := by norm_num [RATE_LIMIT_WINDOW_MS]
  have hstep1 := admit_none emptyRLMap ip t0 rfl
  have hm1 : ((cleanupRateLimitMap t0 emptyRLMap).set ip ⟨1, t0⟩) ip
      = some ⟨1, t0⟩ := RLMap.set_self _ _ _
  have hrun := admitSeq_run ip rest
    ((cleanupRateLimitMap t0 emptyRLMap).set ip ⟨1, t0⟩) 1 t0 hm1
    (by rw [hlen]; norm_num [MAX_REQUESTS_PER_WINDOW])
    (by intro t htm; rw [hW]; exact hin t htm)
  have h20 : (admitSeq emptyRLMap ip (t0 :: rest)).1 ip = some ⟨20, t0⟩ := by
    have h1 := hrun.1
    rw [hlen] at h1
    simpa [admitSeq, hstep1] using h1
  have hden := admit_full (admitSeq emptyRLMap ip (t0 :: rest)).1 ip now21
    ⟨20, t0⟩ h20 (by rw [hW]; exact h21)
    (by norm_num [MAX_REQUESTS_PER_WINDOW])
  have hm21 : (rateLimiter (admitSeq emptyRLMap ip (t0 :: rest)).1 ip
      now21).1 ip = some ⟨20, t0⟩ := by
    rw [hden]
    show cleanupRateLimitMap now21 (admitSeq emptyRLMap ip (t0 :: rest)).1 ip
      = some ⟨20, t0⟩
    have hle : ¬(now21 - t0 > RATE_LIMIT_WINDOW_MS) :=
      not_lt_of_le (by rw [hW]; exact h21)
    rw [cleanup_eq, h20]
    dsimp only
    rw [if_neg hle]
  have hexp := admit_expired (rateLimiter
      (admitSeq emptyRLMap ip (t0 :: rest)).1 ip now21).1 ip (t0 + 60001)
    ⟨20, t0⟩ hm21 (by rw [hW]; show t0 + 60001 - t0 > 60000; omega)
  refine ⟨?_, ?_, ?_, ?_⟩
  · simp only [admitSeq, hstep1]
    simp [hrun.2]
  · rw [hden]
  · rw [hexp]
  · rw [hexp]
    exact RLMap.set_self _ _ _

/-- Witness for C3 at a concrete identity and times. -/
theorem C3_window_boundary_witness :
    (admitSeq emptyRLMap "a" ((0 : Int) :: List.replicate 19 0)).2.all
      (fun b => b) = true ∧
    (rateLimiter (admitSeq emptyRLMap "a"
      ((0 : Int) :: List.replicate 19 0)).1 "a" 60000).2 = false ∧
    (rateLimiter (rateLimiter (admitSeq emptyRLMap "a"
      ((0 : Int) :: List.replicate 19 0)).1 "a" 60000).1 "a"
      (0 + 60001)).2 = true ∧
    (rateLimiter (rateLimiter (admitSeq emptyRLMap "a"
      ((0 : Int) :: List.replicate 19 0)).1 "a" 60000).1 "a"
      (0 + 60001)).1 "a" = some ⟨1, 0 + 60001⟩ :=
  C3_window_boundary "a" 0 (List.replicate 19 0) (by simp)
    (by intro t ht; rw [List.eq_of_mem_replicate ht]; norm_num) 60000
    (by norm_num)

/-- C4: the cleanup sweep runs on every admit call before the request's own
lookup, deleting every other key's entry whose age exceeds the window; and
immediately after any `admit(key, now)` completes, every entry remaining in
the table satisfies `now - windowStart <= WINDOW_MS` (the admitted key's
own expired entry having been deleted and recreated fresh). -/
theorem C4_sweep_invariant (m : RLMap) (ip : String) (now : Int) :
    (∀ q e, m q = some e → now - e.start > RATE_LIMIT_WINDOW_MS → q ≠ ip →
      (rateLimiter m ip now).1 q = none) ∧
    (∀ q e, (rateLimiter m ip now).1 q = some e →
      now - e.start ≤ RATE_LIMIT_WINDOW_MS) := by
  constructor
  · intro q e hm hx hq
    rw [admit_other m ip now q hq, cleanup_eq, hm]
    dsimp only
    rw [if_pos hx]
  · intro q e h
    exact admit_post_fresh m ip now q e h

/-- Witness for C4: an expired entry for key `b` is swept by an admit for
key `a`, and the surviving entry for `a` is inside the window. -/
theorem C4_sweep_invariant_witness :
    (rateLimiter (emptyRLMap.set "b" ⟨1, 0⟩) "a" 70000).1 "b" = none ∧
    (70000 : Int) - (RLEntry.mk 1 70000).start ≤ RATE_LIMIT_WINDOW_MS :=
  ⟨(C4_sweep_invariant (emptyRLMap.set "b" ⟨1, 0⟩) "a" 70000).1 "b" ⟨1, 0⟩
      (by decide) (by decide) (by decide),
    (C4_sweep_invariant (emptyRLMap.set "b" ⟨1, 0⟩) "a" 70000).2 "a"
      ⟨1, 70000⟩ (by decide)⟩

/-- C9: in every table reachable from the empty table by admit calls, every
entry's count lies between 1 and `MAX_REQUESTS = 20`: counts are created at
1 and a request that sees `count >= MAX_REQUESTS` is denied without
mutation, so counts never pass the maximum. -/
theorem C9_count_bounds (m : RLMap) (h : ReachableRL m) :
    ∀ q e, m q = some e →
      1 ≤ e.count ∧ e.count ≤ MAX_REQUESTS_PER_WINDOW := by
  induction h with
  | init => intro q e he; exact absurd he (by simp [emptyRLMap])
  | step m ip now hr ih =>
      intro q e he
      rcases admit_entry_source m ip now q e he with hm | h1 | ⟨e0, hm0, hlt, heq⟩
      · exact ih q e hm
      · subst h1
        exact ⟨le_refl 1, by norm_num [MAX_REQUESTS_PER_WINDOW]⟩
      · subst heq
        refine ⟨?_, ?_⟩
        · show 1 ≤ e0.count + 1
          omega
        · show e0.count + 1 ≤ MAX_REQUESTS_PER_WINDOW
          omega

/-- Witness for C9 at the table reached by one admit call. -/
theorem C9_count_bounds_witness :
    1 ≤ (RLEntry.mk 1 0).count ∧
    (RLEntry.mk 1 0).count ≤ MAX_REQUESTS_PER_WINDOW :=
  C9_count_bounds (rateLimiter emptyRLMap "a" 0).1
    (ReachableRL.step emptyRLMap "a" 0 ReachableRL.init) "a" ⟨1, 0⟩
    (by decide)

/-! ## Claim theorems: alert store and handler -/

/-- C8: `readAlertsSafe` never throws to its caller — it is total — and on
a read failure (absent file) or a JSON parse failure it returns the empty
array. -/
theorem C8_read_failure_yields_empty :
    readAlertsSafe FileContent.missing = JValue.arr [] ∧
    readAlertsSafe FileContent.invalid = JValue.arr [] := ⟨rfl, rfl⟩

/-- C5: a submission whose severity is not one of LOW/MEDIUM/HIGH (as a
string) or whose type or message is not a string produces a 400 result and
returns the store exactly as it was; the outcome is the same for every
store content, reflecting that the store is neither read nor written. -/
theorem C5_invalid_input_untouched_store (w : Bool) (c : FileContent)
    (body : JObj) (iso : String)
    (h : isString (getProp body "type") = false ∨
      isString (getProp body "message") = false ∨
      jsIncludes allowedSeverities (getProp body "severity") = false) :
    postAlert w c body iso = (c, PostResult.badRequest) :=
  postAlert_invalid w c body iso h

/-- Witness for C5 at a concrete invalid severity. -/
theorem C5_invalid_input_untouched_store_witness :
    postAlert true (FileContent.json (JValue.arr []))
        [("type", JValue.str "t"), ("message", JValue.str "m"),
         ("severity", JValue.str "URGENT")] "T"
      = (FileContent.json (JValue.arr []), PostResult.badRequest) :=
  C5_invalid_input_untouched_store true (FileContent.json (JValue.arr []))
    [("type", JValue.str "t"), ("message", JValue.str "m"),
     ("severity", JValue.str "URGENT")] "T" (Or.inr (Or.inr rfl))

/-- C6: if the backing store holds invalid JSON or a valid JSON value that
is not an array, then after `initAlertsFile` a read yields the empty array,
and a subsequent append (with succeeding I/O) succeeds and results in a
one-element sequence. -/
theorem C6_corruption_recovery (c : FileContent) (r : JValue)
    (h : c = FileContent.invalid ∨
      ∃ v, c = FileContent.json v ∧ isArray v = false) :
    readAlertsSafe (initAlertsFile c) = JValue.arr [] ∧
    appendOne true (initAlertsFile c) r
      = some (FileContent.json (JValue.arr [r]), true) ∧
    readAlertsSafe (FileContent.json (JValue.arr [r]))
      = JValue.arr [r] := by
  have hi : initAlertsFile c = FileContent.json (JValue.arr []) := by
    rcases h with h | ⟨v, hv, hna⟩
    · rw [h]; rfl
    · rw [hv]; simp [initAlertsFile, hna]
  rw [hi]
  exact ⟨rfl, rfl, rfl⟩

/-- Witness for C6 at an invalid-JSON store. -/
theorem C6_corruption_recovery_witness :
    readAlertsSafe (initAlertsFile FileContent.invalid) = JValue.arr [] ∧
    appendOne true (initAlertsFile FileContent.invalid) (JValue.str "x")
      = some (FileContent.json (JValue.arr [JValue.str "x"]), true) ∧
    readAlertsSafe (FileContent.json (JValue.arr [JValue.str "x"]))
      = JValue.arr [JValue.str "x"] :=
  C6_corruption_recovery FileContent.invalid (JValue.str "x") (Or.inl rfl)

/-- Counterexample to C7 as stated: when the current store content is the
valid JSON non-array value `{}`, the handler's read-push-write append
throws (`none`): the parsed value has no `push`, so no write happens and no
sequence ending in the record results. -/
theorem C7_counterexample_nonarray_store :
    appendOne true (FileContent.json (JValue.obj [])) (JValue.str "r")
      = none := rfl

/-- C7 (amended): for every record `r` and every current store content
whose parse yields an array — every content except a valid-JSON non-array
value — the append succeeds (with succeeding I/O) and a subsequent read
yields a sequence whose last element equals `r`. -/
theorem C7_append_roundtrip (c : FileContent) (r : JValue) (xs : List JValue)
    (h : readAlertsSafe c = JValue.arr xs) :
    appendOne true c r
      = some (FileContent.json (JValue.arr (xs ++ [r])), true) ∧
    readAlertsSafe (FileContent.json (JValue.arr (xs ++ [r])))
      = JValue.arr (xs ++ [r]) ∧
    (xs ++ [r]).getLast? = some r := by
  refine ⟨?_, rfl, by simp⟩
  simp [appendOne, h, jsPush, writeAlertsSafe]

/-- Witness for C7 (amended) on a one-element store. -/
theorem C7_append_roundtrip_witness :
    appendOne true (FileContent.json (JValue.arr [JValue.str "old"]))
        (JValue.str "new")
      = some (FileContent.json
          (JValue.arr ([JValue.str "old"] ++ [JValue.str "new"])), true) ∧
    readAlertsSafe (FileContent.json
        (JValue.arr ([JValue.str "old"] ++ [JValue.str "new"])))
      = JValue.arr ([JValue.str "old"] ++ [JValue.str "new"]) ∧
    ([JValue.str "old"] ++ [JValue.str "new"]).getLast?
      = some (JValue.str "new") :=
  C7_append_roundtrip (FileContent.json (JValue.arr [JValue.str "old"]))
    (JValue.str "new") [JValue.str "old"] rfl

/-- Counterexample to C1 as stated: a submission whose `type` is the empty
string passes validation and is persisted, so a persisted record need not
have a non-empty `type` — `typeof '' === 'string'` is all the code checks. -/
theorem C1_counterexample_empty_type_persisted :
    (postAlert true (FileContent.json (JValue.arr []))
        [("type", JValue.str ""), ("message", JValue.str "m"),
         ("severity", JValue.str "LOW")] "T").2 = PostResult.saved ∧
    (postAlert true (FileContent.json (JValue.arr []))
        [("type", JValue.str ""), ("message", JValue.str "m"),
         ("severity", JValue.str "LOW")] "T").1
      = FileContent.json (JValue.arr [JValue.obj
          [("type", JValue.str ""), ("message", JValue.str "m"),
           ("severity", JValue.str "LOW"), ("time", JValue.str "T")]]) ∧
    getProp [("type", JValue.str ""), ("message", JValue.str "m"),
        ("severity", JValue.str "LOW"), ("time", JValue.str "T")] "type"
      = some (JValue.str "") :=
  ⟨rfl, rfl, rfl⟩

/-- C1 (amended): every record persisted by a submission has a severity
that is one of LOW, MEDIUM, HIGH, and `type` and `message` fields that are
strings (possibly empty): on a saved submission the appended record is the
stamped body and its three validated fields read back accordingly. -/
theorem C1_persisted_record_fields (w : Bool) (c : FileContent) (body : JObj)
    (iso : String) (h : (postAlert w c body iso).2 = PostResult.saved) :
    (∃ xs, (postAlert w c body iso).1 = FileContent.json (JValue.arr
      (xs ++ [JValue.obj (setProp body "time" (JValue.str iso))]))) ∧
    isString (getProp (setProp body "time" (JValue.str iso)) "type")
      = true ∧
    isString (getProp (setProp body "time" (JValue.str iso)) "message")
      = true ∧
    jsIncludes allowedSeverities
      (getProp (setProp body "time" (JValue.str iso)) "severity") = true := by
  obtain ⟨h1, h2, h3, hw, xs, hr, hres⟩ := postAlert_saved_shape w c body iso h
  refine ⟨⟨xs, hres⟩, ?_, ?_, ?_⟩
  · rw [getProp_setProp_other body "time" "type" (JValue.str iso) (by decide)]
    exact h1
  · rw [getProp_setProp_other body "time" "message" (JValue.str iso)
      (by decide)]
    exact h2
  · rw [getProp_setProp_other body "time" "severity" (JValue.str iso)
      (by decide)]
    exact h3

/-- Witness for C1 (amended) at a concrete valid submission. -/
theorem C1_persisted_record_fields_witness :
    isString (getProp (setProp
        [("type", JValue.str "t"), ("message", JValue.str "m"),
         ("severity", JValue.str "LOW")] "time" (JValue.str "T")) "type")
      = true :=
  (C1_persisted_record_fields true (FileContent.json (JValue.arr []))
    [("type", JValue.str "t"), ("message", JValue.str "m"),
     ("severity", JValue.str "LOW")] "T" rfl).2.1

/-- C10: on every saved submission the entire submitted body object is
persisted: the appended record is exactly the body with only its `time`
property set to the server timestamp, so every other property — including
extras beyond type/message/severity — reads back unchanged, and any
client-supplied `time` is overwritten by the server-assigned value. -/
theorem C10_body_persisted_verbatim (w : Bool) (c : FileContent)
    (body : JObj) (iso : String)
    (h : (postAlert w c body iso).2 = PostResult.saved) :
    (∃ xs, readAlertsSafe c = JValue.arr xs ∧
      (postAlert w c body iso).1 = FileContent.json (JValue.arr
        (xs ++ [JValue.obj (setProp body "time" (JValue.str iso))]))) ∧
    getProp (setProp body "time" (JValue.str iso)) "time"
      = some (JValue.str iso) ∧
    (∀ k, k ≠ "time" →
      getProp (setProp body "time" (JValue.str iso)) k = getProp body k) := by
  obtain ⟨h1, h2, h3, hw, xs, hr, hres⟩ := postAlert_saved_shape w c body iso h
  exact ⟨⟨xs, hr, hres⟩, getProp_setProp_same body "time" (JValue.str iso),
    fun k hk => getProp_setProp_other body "time" k (JValue.str iso) hk⟩

/-- Witness for C10: a body with an extra property and a client-supplied
`time`; the extra property survives and `time` is overwritten. -/
theorem C10_body_persisted_verbatim_witness :
    getProp (setProp
        [("type", JValue.str "t"), ("message", JValue.str "m"),
         ("severity", JValue.str "HIGH"), ("extra", JValue.num 7),
         ("time", JValue.str "client")] "time" (JValue.str "S")) "time"
      = some (JValue.str "S") ∧
    getProp (setProp
        [("type", JValue.str "t"), ("message", JValue.str "m"),
         ("severity", JValue.str "HIGH"), ("extra", JValue.num 7),
         ("time", JValue.str "client")] "time" (JValue.str "S")) "extra"
      = getProp
        [("type", JValue.str "t"), ("message", JValue.str "m"),
         ("severity", JValue.str "HIGH"), ("extra", JValue.num 7),
         ("time", JValue.str "client")] "extra" :=
  ⟨(C10_body_persisted_verbatim true (FileContent.json (JValue.arr []))
      [("type", JValue.str "t"), ("message", JValue.str "m"),
       ("severity", JValue.str "HIGH"), ("extra", JValue.num 7),
       ("time", JValue.str "client")] "S" rfl).2.1,
    (C10_body_persisted_verbatim true (FileContent.json (JValue.arr []))
      [("type", JValue.str "t"), ("message", JValue.str "m"),
       ("severity", JValue.str "HIGH"), ("extra", JValue.num 7),
       ("time", JValue.str "client")] "S" rfl).2.2 "extra" (by decide)⟩
